import Mathlib

/-!
Verification of the Earnings-Momentum-Breakout-Strategy scoring pipeline
(src/app.py).  The two functions the claims concern are embedded here:

- `get_stock_data` (app.py lines 16-69): builds one record of fundamental
  and technical fields per symbol.  The external numeric libraries are
  modelled at their interface: TA-Lib indicator calls (EMA, RSI, MACD, SMA,
  STOCH, BBANDS) are abstract functions from a price history to the
  indicator's last value, with `none` standing for NaN (the value TA-Lib
  emits while the input is shorter than the indicator lookback); the
  pandas rolling-mean used for the Volume Surge column is in the source
  and is embedded concretely.  Float arithmetic is modelled by exact
  rationals, and NaN by `Option ℚ`; a float comparison involving NaN is
  false, which `optGt` reproduces.

- `calculate_stock_scores` (app.py lines 72-92): `df.dropna()` drops every
  row with a NaN in any column; `Series.rank(ascending=False)` is the
  pandas default method `average` (a value's rank is the count of strictly
  greater values plus half of (count of equal values + 1)); the final
  `df.sort_values(by=..., ascending=False)` is pandas `nargsort`, which
  reverses the values and the index array, takes an ascending argsort,
  and reverses the resulting indexer again (the fix for pandas issue
  6399); the two reversals cancel on ties, so the descending sort keeps
  tied rows in their pre-sort relative order whenever the underlying
  argsort is stable.  numpy's default quicksort runs as a plain, stable
  insertion sort on inputs below 16 elements, so for such batches the
  descending sort is exactly the stable descending sort; `sortValuesDesc`
  embeds reverse, then stable ascending insertion sort, then reverse —
  the unique stable descending order — exact for every batch below 16
  rows (pandas pins this by regression test; for larger batches the
  introsort path gives no such guarantee).
-/

/-- One row of the price/volume history returned by the market-data
provider (the columns of app.py line 27 that the code reads). -/
structure Bar where
  close : ℚ
  high : ℚ
  low : ℚ
  volume : ℚ
deriving DecidableEq

/-- Last values of the TA-Lib indicator calls of app.py lines 31-39,
abstract interface functions: `none` models the NaN that TA-Lib emits
when the history is shorter than the indicator lookback. -/
structure Indicators where
  ema50 : List Bar → Option ℚ
  rsi14 : List Bar → Option ℚ
  macd : List Bar → Option ℚ
  macdSignal : List Bar → Option ℚ
  sma200 : List Bar → Option ℚ
  stochK : List Bar → Option ℚ
  bollingerUpper : List Bar → Option ℚ

/-- The provider payload that `get_stock_data` reads for one symbol:
`info.get(...)` fields (`none` = absent), the 6-month history, and the
calendar's earnings date (`none` = absent, app.py line 53). -/
structure ProviderData where
  earningsSurprise : Option ℚ
  revenueGrowth : Option ℚ
  hist : List Bar
  earningsDate : Option ℚ

/-- One row of the DataFrame built at app.py line 110: the dictionary
returned by `get_stock_data` (lines 55-67).  A cell holding NaN is
`none`; the date is modelled by an opaque rational code, only its
presence matters to the pipeline. -/
structure StockRecord where
  symbol : String
  earningsSurprise : Option ℚ
  revenueGrowth : Option ℚ
  priceAboveEma50 : Option ℚ
  rsiAbove50 : Option ℚ
  macdBullish : Option ℚ
  volumeSurge : Option ℚ
  priceAboveSma200 : Option ℚ
  stochOverbought : Option ℚ
  bollingerBreakout : Option ℚ
  nextEarningsDate : Option ℚ
deriving DecidableEq

/-- Strict float comparison `a > b` with NaN semantics: false whenever
either side is NaN (the `1 if x > y else 0` tests of app.py lines 42-48). -/
def optGt : Option ℚ → Option ℚ → Bool
  | some x, some y => decide (y < x)
  | _, _ => false

/-- `1 if cond else 0` of app.py lines 42-48. -/
def indicatorBit (b : Bool) : ℚ := if b then 1 else 0

/-- `.iloc[-1]` of the Close column. -/
def closeLast (hist : List Bar) : Option ℚ := hist.getLast?.map Bar.close

/-- Last value of `Series.rolling(n).mean()`: mean of the final `n`
entries, NaN while fewer than `n` entries exist. -/
def rollingMeanLast (n : Nat) (xs : List ℚ) : Option ℚ :=
  if n ≤ xs.length then some ((xs.drop (xs.length - n)).sum / (n : ℚ)) else none

/-- Last value of the Volume Surge column of app.py line 34:
`hist['Volume'] / hist['Volume'].rolling(20).mean()`.  Rational division
by zero yields 0 here where pandas would give NaN for 0/0 (both make the
`> 1.5` test false); the inf case needs a zero mean together with a
non-zero last volume and is unreachable for non-negative volumes. -/
def volumeSurgeLast (hist : List Bar) : Option ℚ :=
  match hist.getLast?, rollingMeanLast 20 (hist.map Bar.volume) with
  | some b, some m => some (b.volume / m)
  | _, _ => none

/-- app.py lines 16-67 (the success path of the try block; the except
branch, line 68-69, is the per-symbol Failure marker and never yields a
record).  When the history is non-empty the seven technical conditions
are computed (lines 29-48); otherwise all seven are NaN (line 50).  The
two fundamental fields are zero-filled when absent (lines 57-58). -/
def get_stock_data (ind : Indicators) (symbol : String) (p : ProviderData) :
    StockRecord :=
  if p.hist.isEmpty then
    { symbol := symbol
      earningsSurprise := some (p.earningsSurprise.getD 0)
      revenueGrowth := some (p.revenueGrowth.getD 0)
      priceAboveEma50 := none
      rsiAbove50 := none
      macdBullish := none
      volumeSurge := none
      priceAboveSma200 := none
      stochOverbought := none
      bollingerBreakout := none
      nextEarningsDate := p.earningsDate }
  else
    { symbol := symbol
      earningsSurprise := some (p.earningsSurprise.getD 0)
      revenueGrowth := some (p.revenueGrowth.getD 0)
      priceAboveEma50 := some (indicatorBit (optGt (closeLast p.hist) (ind.ema50 p.hist)))
      rsiAbove50 := some (indicatorBit (optGt (ind.rsi14 p.hist) (some 50)))
      macdBullish := some (indicatorBit (optGt (ind.macd p.hist) (ind.macdSignal p.hist)))
      volumeSurge := some (indicatorBit (optGt (volumeSurgeLast p.hist) (some (3/2))))
      priceAboveSma200 := some (indicatorBit (optGt (closeLast p.hist) (ind.sma200 p.hist)))
      stochOverbought := some (indicatorBit (optGt (ind.stochK p.hist) (some 80)))
      bollingerBreakout := some (indicatorBit (optGt (closeLast p.hist) (ind.bollingerUpper p.hist)))
      nextEarningsDate := p.earningsDate }

/-- The seven technical-condition cells of a record, in source order. -/
def techList (r : StockRecord) : List (Option ℚ) :=
  [r.priceAboveEma50, r.rsiAbove50, r.macdBullish, r.volumeSurge,
   r.priceAboveSma200, r.stochOverbought, r.bollingerBreakout]

/-- Row-completeness test of `df.dropna()` (app.py line 73): the row
survives iff no cell is NaN.  The Symbol column is a string and is never
NaN, so only the ten value cells matter. -/
def completeRecord (r : StockRecord) : Bool :=
  r.earningsSurprise.isSome && r.revenueGrowth.isSome &&
  r.priceAboveEma50.isSome && r.rsiAbove50.isSome && r.macdBullish.isSome &&
  r.volumeSurge.isSome && r.priceAboveSma200.isSome &&
  r.stochOverbought.isSome && r.bollingerBreakout.isSome &&
  r.nextEarningsDate.isSome

/-- The rows that survive `df.dropna().reset_index(drop=True)`. -/
def survivors (df : List StockRecord) : List StockRecord :=
  df.filter completeRecord

/-- Cell readers for surviving rows.  `dropna` has already removed every
row with a `none`, so `getD 0` only ever unwraps a `some` in the
pipeline; the default is never read. -/
def fES (r : StockRecord) : ℚ := r.earningsSurprise.getD 0

def fRG (r : StockRecord) : ℚ := r.revenueGrowth.getD 0

def fT1 (r : StockRecord) : ℚ := r.priceAboveEma50.getD 0

def fT2 (r : StockRecord) : ℚ := r.rsiAbove50.getD 0

def fT3 (r : StockRecord) : ℚ := r.macdBullish.getD 0

def fT4 (r : StockRecord) : ℚ := r.volumeSurge.getD 0

def fT5 (r : StockRecord) : ℚ := r.priceAboveSma200.getD 0

def fT6 (r : StockRecord) : ℚ := r.stochOverbought.getD 0

def fT7 (r : StockRecord) : ℚ := r.bollingerBreakout.getD 0

/-- `Series.rank(ascending=False)` with the pandas default tie method
`average`: the rank of value `v` within column `xs` is the number of
strictly greater entries plus the average of the positions the `v`-tie
block occupies, i.e. plus (count of equal entries + 1) / 2. -/
def rankDescVal (xs : List ℚ) (v : ℚ) : ℚ :=
  (xs.countP (fun y => decide (v < y)) : ℚ) +
    ((xs.countP (fun y => decide (y = v)) : ℚ) + 1) / 2

/-- app.py line 76: sum of the two descending ranks. -/
def fundamentalScore (s : List StockRecord) (r : StockRecord) : ℚ :=
  rankDescVal (s.map fES) (fES r) + rankDescVal (s.map fRG) (fRG r)

/-- app.py line 77: sum of the seven 0/1 technical cells. -/
def technicalScore (r : StockRecord) : ℚ :=
  fT1 r + fT2 r + fT3 r + fT4 r + fT5 r + fT6 r + fT7 r

/-- The `(a, b)` multipliers chosen by the if/elif/else of app.py
lines 83-88 (1.2 = 6/5, 0.8 = 4/5). -/
def positionWeights (risk : String) : ℚ × ℚ :=
  if risk = "Aggressive" then (6/5, 4/5)
  else if risk = "Conservative" then (4/5, 6/5)
  else (1, 1)

/-- One output row: the columns added at app.py lines 76-88. -/
structure ScoredRow where
  symbol : String
  fundamentalScore : ℚ
  technicalScore : ℚ
  breakoutProb : ℚ
  positionSize : ℚ
  nextEarningsDate : Option ℚ
deriving DecidableEq

/-- The per-row column computations of app.py lines 76-88, with `s` the
surviving batch (ranks are relative to it). -/
def scoreRow (s : List StockRecord) (risk : String) (r : StockRecord) :
    ScoredRow :=
  let F := fundamentalScore s r
  let T := technicalScore r
  { symbol := r.symbol
    fundamentalScore := F
    technicalScore := T
    breakoutProb := (F * (1/2) + T * (1/2)) * 10
    positionSize := F * (positionWeights risk).1 + T * (positionWeights risk).2
    nextEarningsDate := r.nextEarningsDate }

/-- Stable insertion into a list ascending in the key `k` (an element is
placed before the first strictly greater-or-equal-keyed element it does
not exceed, after every strictly smaller-keyed one). -/
def insertByKey (k : α → ℚ) (a : α) : List α → List α
  | [] => [a]
  | b :: l => if k a ≤ k b then a :: b :: l else b :: insertByKey k a l

/-- Stable ascending insertion sort by key `k`: the order numpy's default
quicksort produces on inputs below 16 elements (plain insertion sort). -/
def sortAscByKey (k : α → ℚ) : List α → List α
  | [] => []
  | a :: l => insertByKey k a (sortAscByKey k l)

/-- `df.sort_values(by=..., ascending=False)` as pandas `nargsort`
computes it: reverse the rows, argsort ascending, reverse the indexer
again, so ties keep their pre-sort relative order when the underlying
argsort is stable (exact for batches below 16 rows, where the default
quicksort is a plain stable insertion sort; for larger batches the order
within ties is unspecified by pandas). -/
def sortValuesDesc (k : α → ℚ) (l : List α) : List α :=
  (sortAscByKey k l.reverse).reverse

/-- app.py lines 72-92, `calculate_stock_scores`: drop incomplete rows,
add the score columns, sort descending by Breakout Probability %. -/
def calculate_stock_scores (df : List StockRecord) (risk : String) :
    List ScoredRow :=
  let s := survivors df
  sortValuesDesc (fun r => r.breakoutProb) (s.map (scoreRow s risk))

/-- Breakout Probability % of a surviving record, read off before
sorting; it does not depend on the risk setting. -/
def recBreakout (s : List StockRecord) (r : StockRecord) : ℚ :=
  (fundamentalScore s r * (1/2) + technicalScore r * (1/2)) * 10

/-- A record with its Symbol cell blanked: two batches whose `stripSymbol`
images agree differ only in the symbol strings attached to the records. -/
def stripSymbol (r : StockRecord) : StockRecord := { r with symbol := "" }

/-- A record with its Next Earnings Date cell blanked: two records whose
`clearDate` images agree carry the same scoring-relevant data. -/
def clearDate (r : StockRecord) : StockRecord := { r with nextEarningsDate := none }

/-- The ranks assigned to one fundamental field `f` across the surviving
batch `s` (the per-field `Series.rank(ascending=False)` column of
app.py line 76). -/
def fieldRanks (s : List StockRecord) (f : StockRecord → ℚ) : List ℚ :=
  s.map (fun r => rankDescVal (s.map f) (f r))

/-- A complete one-record batch used by witnesses. -/
def rW : StockRecord :=
  { symbol := "AAA", earningsSurprise := some 2, revenueGrowth := some 1,
    priceAboveEma50 := some 1, rsiAbove50 := some 0, macdBullish := some 1,
    volumeSurge := some 0, priceAboveSma200 := some 1, stochOverbought := some 0,
    bollingerBreakout := some 1, nextEarningsDate := some 0 }

/-- A complete record whose technical conditions are all false, so its
fundamental score exceeds its technical score in a one-record batch. -/
def rF : StockRecord :=
  { symbol := "FFF", earningsSurprise := some 2, revenueGrowth := some 1,
    priceAboveEma50 := some 0, rsiAbove50 := some 0, macdBullish := some 0,
    volumeSurge := some 0, priceAboveSma200 := some 0, stochOverbought := some 0,
    bollingerBreakout := some 0, nextEarningsDate := some 0 }

/-- First of two complete records that differ only in their symbol. -/
def rA : StockRecord :=
  { symbol := "A", earningsSurprise := some 1, revenueGrowth := some 1,
    priceAboveEma50 := some 1, rsiAbove50 := some 1, macdBullish := some 1,
    volumeSurge := some 1, priceAboveSma200 := some 1, stochOverbought := some 1,
    bollingerBreakout := some 1, nextEarningsDate := some 0 }

/-- Second of the pair: identical to `rA` except for the symbol. -/
def rB : StockRecord := { rA with symbol := "B" }

/-- A record whose fundamental and technical cells are all present but
whose Next Earnings Date cell is NaN (app.py line 53 yields NaN whenever
the provider calendar lacks the date). -/
def rNoDate : StockRecord :=
  { symbol := "ND", earningsSurprise := some 3, revenueGrowth := some 2,
    priceAboveEma50 := some 1, rsiAbove50 := some 1, macdBullish := some 0,
    volumeSurge := some 0, priceAboveSma200 := some 1, stochOverbought := some 0,
    bollingerBreakout := some 0, nextEarningsDate := none }

/-- Indicator valuations for a history shorter than every lookback in
use, where TA-Lib emits NaN throughout (EMA50 needs 50 bars, RSI14 needs
15, MACD(12,26,9) needs 34, SMA200 needs 200, STOCH(14,3,3) needs 17,
BBANDS(20) needs 20); applied below only to a one-bar history, on which
this is exactly TA-Lib's output. -/
def subLookbackIndicators : Indicators :=
  { ema50 := fun _ => none
    rsi14 := fun _ => none
    macd := fun _ => none
    macdSignal := fun _ => none
    sma200 := fun _ => none
    stochK := fun _ => none
    bollingerUpper := fun _ => none }

/-- Provider payload with an empty price history. -/
def pEmpty : ProviderData :=
  { earningsSurprise := some 1, revenueGrowth := some 1, hist := [], earningsDate := some 0 }

/-- Provider payload with a one-bar history: non-empty, yet far shorter
than the 200-period lookback of the SMA200 signal. -/
def pShort : ProviderData :=
  { earningsSurprise := some 1, revenueGrowth := some 1,
    hist := [{ close := 10, high := 11, low := 9, volume := 100 }],
    earningsDate := some 0 }

theorem scoreRow_fund (s : List StockRecord) (risk : String) (r : StockRecord) :
    (scoreRow s risk r).fundamentalScore = fundamentalScore s r := rfl

theorem scoreRow_tech (s : List StockRecord) (risk : String) (r : StockRecord) :
    (scoreRow s risk r).technicalScore = technicalScore r := rfl

theorem scoreRow_breakout (s : List StockRecord) (risk : String) (r : StockRecord) :
    (scoreRow s risk r).breakoutProb =
      (fundamentalScore s r * (1/2) + technicalScore r * (1/2)) * 10 := rfl

theorem scoreRow_pos (s : List StockRecord) (risk : String) (r : StockRecord) :
    (scoreRow s risk r).positionSize =
      fundamentalScore s r * (positionWeights risk).1 +
        technicalScore r * (positionWeights risk).2 := rfl

theorem insertByKey_map {α β : Type} (g : α → β) (k : β → ℚ) (k0 : α → ℚ)
    (hk : ∀ a, k (g a) = k0 a) (a : α) (l : List α) :
    insertByKey k (g a) (l.map g) = (insertByKey k0 a l).map g := by
  induction l with
  | nil => rfl
  | cons b t ih =>
    simp only [List.map_cons, insertByKey, hk]
    by_cases h : k0 a ≤ k0 b
    · simp [h]
    · simp [h, ih]

theorem sortAscByKey_map {α β : Type} (g : α → β) (k : β → ℚ) (k0 : α → ℚ)
    (hk : ∀ a, k (g a) = k0 a) (l : List α) :
    sortAscByKey k (l.map g) = (sortAscByKey k0 l).map g := by
  induction l with
  | nil => rfl
  | cons a t ih =>
    simp only [List.map_cons, sortAscByKey, ih]
    exact insertByKey_map g k k0 hk a (sortAscByKey k0 t)

theorem calculate_eq (df : List StockRecord) (risk : String) :
    calculate_stock_scores df risk =
      ((sortAscByKey (recBreakout (survivors df)) ((survivors df).reverse)).map
        (scoreRow (survivors df) risk)).reverse := by
  show (sortAscByKey (fun r => r.breakoutProb)
      (((survivors df).map (scoreRow (survivors df) risk)).reverse)).reverse = _
  rw [show (((survivors df).map (scoreRow (survivors df) risk)).reverse)
      = ((survivors df).reverse).map (scoreRow (survivors df) risk) from
    (List.map_reverse _ _).symm]
  rw [sortAscByKey_map (scoreRow (survivors df) risk)
    (fun r => ScoredRow.breakoutProb r) (recBreakout (survivors df)) (fun a => rfl)]

/-- C9: when the set of records surviving the missing-field drop is empty
(in particular on empty input), the scorer returns an empty sequence for
every risk-tolerance value; it is a total function so no error arises. -/
theorem C9_empty_batch (df : List StockRecord) (risk : String)
    (h : survivors df = []) : calculate_stock_scores df risk = [] := by
  rw [calculate_eq, h]
  rfl

theorem C9_empty_batch_witness : calculate_stock_scores [] ("Balanced") = [] :=
  C9_empty_batch [] ("Balanced") rfl

/-- C10: any risk-tolerance string other than "Aggressive" and
"Conservative" — not only "Balanced" — takes the else branch, so the
whole output coincides with the Balanced run and position size is the
plain sum of the two scores. -/
theorem C10_unknown_risk_is_balanced (df : List StockRecord) (risk : String)
    (h1 : risk ≠ "Aggressive") (h2 : risk ≠ "Conservative") :
    calculate_stock_scores df risk = calculate_stock_scores df ("Balanced") ∧
    ∀ r ∈ calculate_stock_scores df risk,
      r.positionSize = r.fundamentalScore + r.technicalScore := by
  have hw : positionWeights risk = (1, 1) := by
    simp [positionWeights, h1, h2]
  have hsr : scoreRow (survivors df) risk = scoreRow (survivors df) ("Balanced") := by
    funext x
    simp only [scoreRow, hw]
    rfl
  constructor
  · rw [calculate_eq, calculate_eq, hsr]
  · intro r hr
    rw [calculate_eq, List.mem_reverse] at hr
    rcases List.mem_map.mp hr with ⟨x, _, rfl⟩
    rw [scoreRow_pos, scoreRow_fund, scoreRow_tech, hw]
    simp

theorem C10_unknown_risk_is_balanced_witness :
    calculate_stock_scores [rW] ("Foo") = calculate_stock_scores [rW] ("Balanced") :=
  (C10_unknown_risk_is_balanced [rW] ("Foo") (by decide) (by decide)).1

/-- C4: every output row's breakout probability is the even 50/50 blend
of its two scores scaled by 10, and the two weights sum to 1. -/
theorem C4_breakout_formula (df : List StockRecord) (risk : String)
    (r : ScoredRow) (h : r ∈ calculate_stock_scores df risk) :
    r.breakoutProb =
      (r.fundamentalScore * (1/2) + r.technicalScore * (1/2)) * 10 ∧
    (1/2 : ℚ) + 1/2 = 1 := by
  refine ⟨?_, by norm_num⟩
  rw [calculate_eq, List.mem_reverse] at h
  rcases List.mem_map.mp h with ⟨x, _, rfl⟩
  rw [scoreRow_breakout, scoreRow_fund, scoreRow_tech]

theorem C4_breakout_formula_witness :
    (scoreRow [rW] ("Balanced") rW).breakoutProb =
      ((scoreRow [rW] ("Balanced") rW).fundamentalScore * (1/2) +
        (scoreRow [rW] ("Balanced") rW).technicalScore * (1/2)) * 10 ∧
    (1/2 : ℚ) + 1/2 = 1 :=
  C4_breakout_formula [rW] ("Balanced") (scoreRow [rW] ("Balanced") rW)
    (by rw [show calculate_stock_scores [rW] ("Balanced") =
          [scoreRow [rW] ("Balanced") rW] from rfl]
        exact List.mem_singleton.mpr rfl)

/-- C5: the position-size multipliers are (1.2, 0.8) for Aggressive,
(0.8, 1.2) for Conservative, and (1, 1) for Balanced, under which the
position size is exactly the sum of the two scores. -/
theorem C5_position_size_formulas (df : List StockRecord) (r : ScoredRow) :
    (r ∈ calculate_stock_scores df ("Aggressive") →
      r.positionSize = r.fundamentalScore * (6/5) + r.technicalScore * (4/5)) ∧
    (r ∈ calculate_stock_scores df ("Conservative") →
      r.positionSize = r.fundamentalScore * (4/5) + r.technicalScore * (6/5)) ∧
    (r ∈ calculate_stock_scores df ("Balanced") →
      r.positionSize = r.fundamentalScore + r.technicalScore) := by
  refine ⟨?_, ?_, ?_⟩ <;> intro h <;> rw [calculate_eq, List.mem_reverse] at h <;>
    rcases List.mem_map.mp h with ⟨x, _, rfl⟩ <;>
    rw [scoreRow_pos, scoreRow_fund, scoreRow_tech] <;>
    simp [positionWeights]

theorem C5_position_size_formulas_witness :
    ((scoreRow [rW] ("Aggressive") rW).positionSize =
      (scoreRow [rW] ("Aggressive") rW).fundamentalScore * (6/5) +
        (scoreRow [rW] ("Aggressive") rW).technicalScore * (4/5)) ∧
    ((scoreRow [rW] ("Balanced") rW).positionSize =
      (scoreRow [rW] ("Balanced") rW).fundamentalScore +
        (scoreRow [rW] ("Balanced") rW).technicalScore) :=
  ⟨(C5_position_size_formulas [rW] (scoreRow [rW] ("Aggressive") rW)).1
      (by rw [show calculate_stock_scores [rW] ("Aggressive") =
            [scoreRow [rW] ("Aggressive") rW] from rfl]
          exact List.mem_singleton.mpr rfl),
   (C5_position_size_formulas [rW] (scoreRow [rW] ("Balanced") rW)).2.2
      (by rw [show calculate_stock_scores [rW] ("Balanced") =
            [scoreRow [rW] ("Balanced") rW] from rfl]
          exact List.mem_singleton.mpr rfl)⟩

/-- C6: the Aggressive and Conservative runs over the same batch align
row-for-row on the same record, and the Aggressive position size is
strictly larger than the Conservative one whenever the row's fundamental
score exceeds its technical score, and strictly smaller in the reverse
case. -/
theorem C6_aggressive_vs_conservative (df : List StockRecord) (i : Nat)
    (hA : i < (calculate_stock_scores df ("Aggressive")).length)
    (hC : i < (calculate_stock_scores df ("Conservative")).length) :
    (((calculate_stock_scores df ("Aggressive")).get ⟨i, hA⟩).fundamentalScore >
        ((calculate_stock_scores df ("Aggressive")).get ⟨i, hA⟩).technicalScore →
      ((calculate_stock_scores df ("Aggressive")).get ⟨i, hA⟩).positionSize >
        ((calculate_stock_scores df ("Conservative")).get ⟨i, hC⟩).positionSize) ∧
    (((calculate_stock_scores df ("Aggressive")).get ⟨i, hA⟩).technicalScore >
        ((calculate_stock_scores df ("Aggressive")).get ⟨i, hA⟩).fundamentalScore →
      ((calculate_stock_scores df ("Aggressive")).get ⟨i, hA⟩).positionSize <
        ((calculate_stock_scores df ("Conservative")).get ⟨i, hC⟩).positionSize) := by
  have eA : calculate_stock_scores df ("Aggressive") =
      ((sortAscByKey (recBreakout (survivors df)) ((survivors df).reverse)).reverse).map
        (scoreRow (survivors df) ("Aggressive")) := by
    rw [calculate_eq]
    exact (List.map_reverse _ _).symm
  have eC : calculate_stock_scores df ("Conservative") =
      ((sortAscByKey (recBreakout (survivors df)) ((survivors df).reverse)).reverse).map
        (scoreRow (survivors df) ("Conservative")) := by
    rw [calculate_eq]
    exact (List.map_reverse _ _).symm
  have hM : i < ((sortAscByKey (recBreakout (survivors df)) ((survivors df).reverse)).reverse).length := by
    rw [eA, List.length_map] at hA
    exact hA
  have gA : (calculate_stock_scores df ("Aggressive")).get ⟨i, hA⟩ =
      scoreRow (survivors df) ("Aggressive")
        (((sortAscByKey (recBreakout (survivors df)) ((survivors df).reverse)).reverse).get ⟨i, hM⟩) := by
    simp only [eA, List.get_eq_getElem, List.getElem_map]
  have gC : (calculate_stock_scores df ("Conservative")).get ⟨i, hC⟩ =
      scoreRow (survivors df) ("Conservative")
        (((sortAscByKey (recBreakout (survivors df)) ((survivors df).reverse)).reverse).get ⟨i, hM⟩) := by
    simp only [eC, List.get_eq_getElem, List.getElem_map]
  rw [gA, gC, scoreRow_pos, scoreRow_pos, scoreRow_fund, scoreRow_tech]
  constructor <;> intro h
  · show _ * ((6:ℚ)/5) + _ * ((4:ℚ)/5) > _ * ((4:ℚ)/5) + _ * ((6:ℚ)/5)
    linarith
  · show _ * ((6:ℚ)/5) + _ * ((4:ℚ)/5) < _ * ((4:ℚ)/5) + _ * ((6:ℚ)/5)
    linarith

theorem C6_aggressive_vs_conservative_witness :
    ((calculate_stock_scores [rF] ("Aggressive")).get ⟨0, Nat.zero_lt_one⟩).positionSize >
      ((calculate_stock_scores [rF] ("Conservative")).get ⟨0, Nat.zero_lt_one⟩).positionSize :=
  (C6_aggressive_vs_conservative [rF] 0 Nat.zero_lt_one Nat.zero_lt_one).1
    (by with_unfolding_all decide)

theorem indicatorBit_cases (b : Bool) : indicatorBit b = 0 ∨ indicatorBit b = 1 := by
  cases b
  · left
    rfl
  · right
    rfl

/-- C2 (amended): the technical fields of a fetched record are all the
missing sentinel exactly when the price history is empty; a non-empty
history — even one shorter than the longest 200-period lookback — makes
every technical field a 0/1 value, whatever the indicator library
returns for it (a NaN indicator comparison evaluates to false, hence the
field becomes 0, not missing). -/
theorem C2_missing_iff_empty_history (ind : Indicators) (sym : String)
    (p : ProviderData) :
    (p.hist = [] → techList (get_stock_data ind sym p) =
      [none, none, none, none, none, none, none]) ∧
    (p.hist ≠ [] → ∀ v ∈ techList (get_stock_data ind sym p),
      v = some 0 ∨ v = some 1) := by
  constructor
  · intro h
    simp [get_stock_data, h, techList]
  · intro h
    have hne : p.hist.isEmpty = false := by
      cases hp : p.hist with
      | nil => exact absurd hp h
      | cons a t => rfl
    intro v hv
    simp only [get_stock_data, hne, Bool.false_eq_true, if_false, techList,
      List.mem_cons, List.not_mem_nil, or_false] at hv
    rcases hv with rfl | rfl | rfl | rfl | rfl | rfl | rfl <;>
      (first
        | exact indicatorBit_cases _
        | (simp only [Option.some.injEq]
           exact indicatorBit_cases _))

/-- C2 counterexample: a one-bar history is non-empty yet far shorter
than the 200-period lookback, so the code takes the indicator branch and
every technical field resolves to 0, not to the missing sentinel; the
indicator valuations used are TA-Lib's genuine all-NaN output for a
one-bar input. -/
theorem C2_short_history_counterexample :
    pShort.hist ≠ [] ∧ pShort.hist.length < 200 ∧
    techList (get_stock_data subLookbackIndicators ("X") pShort) =
      [some 0, some 0, some 0, some 0, some 0, some 0, some 0] ∧
    techList (get_stock_data subLookbackIndicators ("X") pShort) ≠
      [none, none, none, none, none, none, none] := by
  refine ⟨by decide, by decide, by with_unfolding_all rfl, ?_⟩
  rw [show techList (get_stock_data subLookbackIndicators ("X") pShort) =
    [some 0, some 0, some 0, some 0, some 0, some 0, some 0] from by
      with_unfolding_all rfl]
  with_unfolding_all decide

theorem C2_missing_iff_empty_history_witness :
    (get_stock_data subLookbackIndicators ("X") pEmpty).priceAboveEma50 = none ∧
    (get_stock_data subLookbackIndicators ("X") pShort).rsiAbove50 = some 0 := by
  constructor
  · have h := (C2_missing_iff_empty_history subLookbackIndicators ("X") pEmpty).1 rfl
    simp only [techList, List.cons.injEq] at h
    exact h.1
  · have h := (C2_missing_iff_empty_history subLookbackIndicators ("X") pShort).2
      (by decide) ((get_stock_data subLookbackIndicators ("X") pShort).rsiAbove50)
      (by simp [techList])
    rcases h with h | h
    · exact h
    · exact absurd h (by with_unfolding_all decide)

theorem fES_clearDate (r : StockRecord) : fES (clearDate r) = fES r := rfl

theorem fRG_clearDate (r : StockRecord) : fRG (clearDate r) = fRG r := rfl

theorem techScore_clearDate (r : StockRecord) :
    technicalScore (clearDate r) = technicalScore r := rfl

theorem map_fES_of_clearDate (s₁ s₂ : List StockRecord)
    (h : s₁.map clearDate = s₂.map clearDate) : s₁.map fES = s₂.map fES := by
  have h1 : (s₁.map clearDate).map fES = (s₂.map clearDate).map fES := by rw [h]
  simpa [List.map_map, Function.comp, fES_clearDate] using h1

theorem map_fRG_of_clearDate (s₁ s₂ : List StockRecord)
    (h : s₁.map clearDate = s₂.map clearDate) : s₁.map fRG = s₂.map fRG := by
  have h1 : (s₁.map clearDate).map fRG = (s₂.map clearDate).map fRG := by rw [h]
  simpa [List.map_map, Function.comp, fRG_clearDate] using h1

/-- C3 (amended): a record is dropped iff at least one of its value
fields is missing — the two fundamental fields, the seven technical
fields, and, contrary to the original claim, also next_earnings_date,
since df.dropna() spans every column; for records that do survive, the
date values still never affect any computed score. -/
theorem C3_drop_iff_missing_and_scores_ignore_date :
    (∀ r : StockRecord, completeRecord r = true ↔
      (r.earningsSurprise.isSome = true ∧ r.revenueGrowth.isSome = true ∧
       r.priceAboveEma50.isSome = true ∧ r.rsiAbove50.isSome = true ∧
       r.macdBullish.isSome = true ∧ r.volumeSurge.isSome = true ∧
       r.priceAboveSma200.isSome = true ∧ r.stochOverbought.isSome = true ∧
       r.bollingerBreakout.isSome = true ∧ r.nextEarningsDate.isSome = true)) ∧
    (∀ s₁ s₂ : List StockRecord, ∀ risk : String, ∀ r₁ r₂ : StockRecord,
      s₁.map clearDate = s₂.map clearDate → clearDate r₁ = clearDate r₂ →
      ((scoreRow s₁ risk r₁).fundamentalScore = (scoreRow s₂ risk r₂).fundamentalScore ∧
       (scoreRow s₁ risk r₁).technicalScore = (scoreRow s₂ risk r₂).technicalScore ∧
       (scoreRow s₁ risk r₁).breakoutProb = (scoreRow s₂ risk r₂).breakoutProb ∧
       (scoreRow s₁ risk r₁).positionSize = (scoreRow s₂ risk r₂).positionSize)) := by
  constructor
  · intro r
    simp [completeRecord, Bool.and_eq_true, and_assoc]
  · intro s₁ s₂ risk r₁ r₂ hs hr
    have hES0 := congrArg fES hr
    have hES : fES r₁ = fES r₂ := hES0
    have hRG0 := congrArg fRG hr
    have hRG : fRG r₁ = fRG r₂ := hRG0
    have hT0 := congrArg technicalScore hr
    have hT : technicalScore r₁ = technicalScore r₂ := hT0
    have hF : fundamentalScore s₁ r₁ = fundamentalScore s₂ r₂ := by
      unfold fundamentalScore
      rw [map_fES_of_clearDate s₁ s₂ hs, map_fRG_of_clearDate s₁ s₂ hs, hES, hRG]
    refine ⟨?_, ?_, ?_, ?_⟩
    · rw [scoreRow_fund, scoreRow_fund, hF]
    · rw [scoreRow_tech, scoreRow_tech, hT]
    · rw [scoreRow_breakout, scoreRow_breakout, hF, hT]
    · rw [scoreRow_pos, scoreRow_pos, hF, hT]

/-- C3 counterexample: a record with every fundamental and technical
field present but a NaN Next Earnings Date is dropped by dropna(), so
the date is not purely informational for the drop decision. -/
theorem C3_date_drop_counterexample :
    completeRecord rNoDate = false ∧
    rNoDate.earningsSurprise.isSome = true ∧
    rNoDate.revenueGrowth.isSome = true ∧
    (techList rNoDate).all Option.isSome = true ∧
    rNoDate.nextEarningsDate = none ∧
    calculate_stock_scores [rNoDate] ("Balanced") = [] := by
  refine ⟨rfl, rfl, rfl, rfl, rfl, ?_⟩
  with_unfolding_all rfl

theorem C3_drop_iff_missing_and_scores_ignore_date_witness :
    (scoreRow [rW] ("Balanced") rW).fundamentalScore =
      (scoreRow [clearDate rW] ("Balanced") (clearDate rW)).fundamentalScore :=
  ((C3_drop_iff_missing_and_scores_ignore_date).2 [rW] [clearDate rW] ("Balanced")
    rW (clearDate rW) rfl rfl).1

theorem sum_map_add_nat {α : Type} (f g : α → ℕ) (l : List α) :
    (l.map (fun x => f x + g x)).sum = (l.map f).sum + (l.map g).sum := by
  induction l with
  | nil => rfl
  | cons a t ih =>
    simp only [List.map_cons, List.sum_cons, ih]
    omega

theorem sum_map_ite_nat (p : ℚ → Bool) (l : List ℚ) :
    (l.map (fun x => if p x then 1 else 0)).sum = l.countP p := by
  induction l with
  | nil => rfl
  | cons a t ih =>
    simp only [List.map_cons, List.sum_cons, List.countP_cons, ih]
    by_cases h : p a
    · simp [h]
      omega
    · simp [h]

theorem countP_gt_add_lt (a : ℚ) (l : List ℚ) (h : ∀ x ∈ l, x ≠ a) :
    l.countP (fun y => decide (a < y)) + l.countP (fun y => decide (y < a)) = l.length := by
  induction l with
  | nil => rfl
  | cons b t ih =>
    have hb : b ≠ a := h b (List.mem_cons_self b t)
    have ht : ∀ x ∈ t, x ≠ a := fun x hx => h x (List.mem_cons_of_mem b hx)
    have iht := ih ht
    rcases lt_or_gt_of_ne hb with hlt | hgt
    · have d1 : (decide (a < b)) = false := by simp [lt_asymm hlt]
      have d2 : (decide (b < a)) = true := by simp [hlt]
      simp only [List.countP_cons, d1, d2, List.length_cons]
      simp only [Bool.false_eq_true, if_false, if_true]
      omega
    · have d1 : (decide (a < b)) = true := by simp [hgt]
      have d2 : (decide (b < a)) = false := by simp [lt_asymm hgt]
      simp only [List.countP_cons, d1, d2, List.length_cons]
      simp only [Bool.false_eq_true, if_false, if_true]
      omega

theorem sum_countP_gt (xs : List ℚ) (h : xs.Nodup) :
    2 * (xs.map (fun x => xs.countP (fun y => decide (x < y)))).sum + xs.length
      = xs.length * xs.length := by
  induction xs with
  | nil => rfl
  | cons a l ih =>
    rcases List.nodup_cons.mp h with ⟨ha, hl⟩
    have hne : ∀ x ∈ l, x ≠ a := fun x hx e => ha (e ▸ hx)
    have step : ((a :: l).map (fun x => (a :: l).countP (fun y => decide (x < y)))).sum
        = l.length + (l.map (fun x => l.countP (fun y => decide (x < y)))).sum := by
      simp only [List.map_cons, List.sum_cons]
      have e0 : (a :: l).countP (fun y => decide (a < y))
          = l.countP (fun y => decide (a < y)) := by
        rw [List.countP_cons]
        simp
      have e1 : l.map (fun x => (a :: l).countP (fun y => decide (x < y)))
          = l.map (fun x =>
              l.countP (fun y => decide (x < y)) + if decide (x < a) then 1 else 0) := by
        refine List.map_congr_left ?_
        intro x hx
        rw [List.countP_cons]
      rw [e0, e1, sum_map_add_nat, sum_map_ite_nat]
      have e2 := countP_gt_add_lt a l hne
      omega
    rw [step]
    have ihl := ih hl
    simp only [List.length_cons]
    nlinarith [ihl]

theorem sum_countP_eq (xs : List ℚ) (h : xs.Nodup) :
    (xs.map (fun x => xs.countP (fun y => decide (y = x)))).sum = xs.length := by
  induction xs with
  | nil => rfl
  | cons a l ih =>
    rcases List.nodup_cons.mp h with ⟨ha, hl⟩
    have h0 : l.countP (fun y => decide (y = a)) = 0 := by
      rw [List.countP_eq_zero]
      intro x hx
      simp only [decide_eq_true_eq]
      exact fun e => ha (e ▸ hx)
    have e1 : l.map (fun x => (a :: l).countP (fun y => decide (y = x)))
        = l.map (fun x => l.countP (fun y => decide (y = x))) := by
      refine List.map_congr_left ?_
      intro x hx
      rw [List.countP_cons]
      have d : (decide (a = x)) = false := by
        simp only [decide_eq_false_iff_not]
        intro e
        exact ha (by rw [e]; exact hx)
      simp [d]
    have e2 : (a :: l).countP (fun y => decide (y = a)) =
        l.countP (fun y => decide (y = a)) + 1 := by
      rw [List.countP_cons]
      simp
    calc ((a :: l).map (fun x => (a :: l).countP (fun y => decide (y = x)))).sum
        = (a :: l).countP (fun y => decide (y = a))
          + (l.map (fun x => (a :: l).countP (fun y => decide (y = x)))).sum := by
          simp only [List.map_cons, List.sum_cons]
      _ = (l.countP (fun y => decide (y = a)) + 1)
          + (l.map (fun x => l.countP (fun y => decide (y = x)))).sum := by rw [e2, e1]
      _ = (0 + 1) + l.length := by rw [h0, ih hl]
      _ = (a :: l).length := by
          simp only [List.length_cons]
          omega

theorem sum_map_add_rat {α : Type} (f g : α → ℚ) (l : List α) :
    (l.map (fun x => f x + g x)).sum = (l.map f).sum + (l.map g).sum := by
  induction l with
  | nil => simp
  | cons a t ih =>
    simp only [List.map_cons, List.sum_cons, ih]
    ring

theorem sum_map_div_two {α : Type} (f : α → ℚ) (l : List α) :
    (l.map (fun x => f x / 2)).sum = (l.map f).sum / 2 := by
  induction l with
  | nil => simp
  | cons a t ih =>
    simp only [List.map_cons, List.sum_cons, ih]
    ring

theorem sum_map_natCast {α : Type} (c : α → ℕ) (l : List α) :
    (l.map (fun x => ((c x : ℕ) : ℚ))).sum = (((l.map c).sum : ℕ) : ℚ) := by
  induction l with
  | nil => simp
  | cons a t ih =>
    simp only [List.map_cons, List.sum_cons, ih]
    push_cast
    ring

theorem sum_map_one_rat {α : Type} (l : List α) :
    (l.map (fun _ => (1 : ℚ))).sum = (l.length : ℚ) := by
  induction l with
  | nil => simp
  | cons a t ih =>
    simp only [List.map_cons, List.sum_cons, ih, List.length_cons]
    push_cast
    ring

/-- C7: when a fundamental field has no tied values across the surviving
batch, the ranks that Series.rank(ascending=False) assigns for that
field sum to N(N+1)/2. -/
theorem C7_rank_sum_identity (df : List StockRecord) (f : StockRecord → ℚ)
    (h : ((survivors df).map f).Nodup) :
    (fieldRanks (survivors df) f).sum =
      ((survivors df).length : ℚ) * (((survivors df).length : ℚ) + 1) / 2 := by
  have hfr : fieldRanks (survivors df) f
      = ((survivors df).map f).map (rankDescVal ((survivors df).map f)) := by
    simp only [fieldRanks, List.map_map]
    rfl
  set xs := (survivors df).map f with hxs
  have hlen : (survivors df).length = xs.length := by
    rw [hxs, List.length_map]
  have e1 : xs.map (rankDescVal xs)
      = xs.map (fun x =>
          ((xs.countP (fun y => decide (x < y)) : ℕ) : ℚ) +
          ((((xs.countP (fun y => decide (y = x)) : ℕ) : ℚ) + 1) / 2)) := rfl
  have e2 : (xs.map (rankDescVal xs)).sum
      = (((xs.map (fun x => xs.countP (fun y => decide (x < y)))).sum : ℕ) : ℚ)
        + ((((xs.map (fun x => xs.countP (fun y => decide (y = x)))).sum : ℕ) : ℚ)
            + (xs.length : ℚ)) / 2 := by
    rw [e1,
      sum_map_add_rat (fun x => ((xs.countP (fun y => decide (x < y)) : ℕ) : ℚ))
        (fun x => ((((xs.countP (fun y => decide (y = x)) : ℕ) : ℚ) + 1) / 2)) xs,
      sum_map_div_two (fun x => (((xs.countP (fun y => decide (y = x)) : ℕ) : ℚ) + 1)) xs,
      sum_map_add_rat (fun x => ((xs.countP (fun y => decide (y = x)) : ℕ) : ℚ))
        (fun _ => (1 : ℚ)) xs,
      sum_map_natCast (fun x => xs.countP (fun y => decide (x < y))) xs,
      sum_map_natCast (fun x => xs.countP (fun y => decide (y = x))) xs,
      sum_map_one_rat xs]
  have hS := sum_countP_gt xs h
  have hE := sum_countP_eq xs h
  have hSq : 2 * (((xs.map (fun x => xs.countP (fun y => decide (x < y)))).sum : ℕ) : ℚ)
      + (xs.length : ℚ) = (xs.length : ℚ) * (xs.length : ℚ) := by
    exact_mod_cast hS
  have hEq : (((xs.map (fun x => xs.countP (fun y => decide (y = x)))).sum : ℕ) : ℚ)
      = (xs.length : ℚ) := by
    exact_mod_cast hE
  rw [hfr, e2, hEq, hlen]
  nlinarith [hSq]

theorem C7_rank_sum_identity_witness :
    (fieldRanks (survivors [rW, rA]) fES).sum =
      ((survivors [rW, rA]).length : ℚ) * (((survivors [rW, rA]).length : ℚ) + 1) / 2 :=
  C7_rank_sum_identity [rW, rA] fES (by with_unfolding_all decide)

theorem completeRecord_stripSymbol (r : StockRecord) :
    completeRecord (stripSymbol r) = completeRecord r := rfl

theorem survivors_map_strip (df1 df2 : List StockRecord)
    (h : df1.map stripSymbol = df2.map stripSymbol) :
    (survivors df1).map stripSymbol = (survivors df2).map stripSymbol := by
  induction df1 generalizing df2 with
  | nil =>
    cases df2 with
    | nil => rfl
    | cons b u => simp at h
  | cons a t ih =>
    cases df2 with
    | nil => simp at h
    | cons b u =>
      simp only [List.map_cons, List.cons.injEq] at h
      rcases h with ⟨hab, htu⟩
      have hc : completeRecord a = completeRecord b := by
        rw [← completeRecord_stripSymbol a, hab, completeRecord_stripSymbol]
      simp only [survivors, List.filter_cons]
      by_cases hca : completeRecord a = true
      · rw [if_pos hca, if_pos (by rw [← hc]; exact hca)]
        simp only [List.map_cons, List.cons.injEq]
        exact ⟨hab, ih u htu⟩
      · rw [if_neg hca, if_neg (by rw [← hc]; exact hca)]
        exact ih u htu

theorem map_eq_of_map_eq {α β γ : Type} (f : α → β) (g1 g2 : α → γ)
    (hg : ∀ a b, f a = f b → g1 a = g2 b) :
    ∀ l1 l2 : List α, l1.map f = l2.map f → l1.map g1 = l2.map g2 := by
  intro l1
  induction l1 with
  | nil =>
    intro l2 h
    cases l2 with
    | nil => rfl
    | cons b u => simp at h
  | cons a t ih =>
    intro l2 h
    cases l2 with
    | nil => simp at h
    | cons b u =>
      simp only [List.map_cons, List.cons.injEq] at h
      rcases h with ⟨hab, htu⟩
      simp only [List.map_cons, List.cons.injEq]
      exact ⟨hg a b hab, ih u htu⟩

theorem insertByKey_pair {α β : Type} (f : α → β) (k1 k2 : α → ℚ)
    (hk : ∀ a b, f a = f b → k1 a = k2 b) (a b : α) (hab : f a = f b) :
    ∀ l1 l2 : List α, l1.map f = l2.map f →
      (insertByKey k1 a l1).map f = (insertByKey k2 b l2).map f := by
  intro l1
  induction l1 with
  | nil =>
    intro l2 h
    cases l2 with
    | nil => simp [insertByKey, hab]
    | cons d u => simp at h
  | cons c t ih =>
    intro l2 h
    cases l2 with
    | nil => simp at h
    | cons d u =>
      simp only [List.map_cons, List.cons.injEq] at h
      rcases h with ⟨hcd, htu⟩
      have hkey : (k1 a ≤ k1 c) = (k2 b ≤ k2 d) := by
        rw [hk a b hab, hk c d hcd]
      simp only [insertByKey]
      by_cases hc : k1 a ≤ k1 c
      · rw [if_pos hc, if_pos (by rw [← hkey]; exact hc)]
        simp only [List.map_cons, List.cons.injEq]
        exact ⟨hab, hcd, htu⟩
      · rw [if_neg hc, if_neg (by rw [← hkey]; exact hc)]
        simp only [List.map_cons, List.cons.injEq]
        exact ⟨hcd, ih u htu⟩

theorem sortAscByKey_pair {α β : Type} (f : α → β) (k1 k2 : α → ℚ)
    (hk : ∀ a b, f a = f b → k1 a = k2 b) :
    ∀ l1 l2 : List α, l1.map f = l2.map f →
      (sortAscByKey k1 l1).map f = (sortAscByKey k2 l2).map f := by
  intro l1
  induction l1 with
  | nil =>
    intro l2 h
    cases l2 with
    | nil => rfl
    | cons b u => simp at h
  | cons a t ih =>
    intro l2 h
    cases l2 with
    | nil => simp at h
    | cons b u =>
      simp only [List.map_cons, List.cons.injEq] at h
      rcases h with ⟨hab, htu⟩
      simp only [sortAscByKey]
      exact insertByKey_pair f k1 k2 hk a b hab _ _ (ih u htu)

/-- C8: two batches that differ only in the symbol strings attached to
the records produce the same fundamental scores row-for-row: the score
is a function of field values only, not of symbol identity. -/
theorem C8_symbol_invariance (df1 df2 : List StockRecord) (risk : String)
    (h : df1.map stripSymbol = df2.map stripSymbol) :
    (calculate_stock_scores df1 risk).map (fun r => r.fundamentalScore) =
      (calculate_stock_scores df2 risk).map (fun r => r.fundamentalScore) := by
  have hs : (survivors df1).map stripSymbol = (survivors df2).map stripSymbol :=
    survivors_map_strip df1 df2 h
  have hES : (survivors df1).map fES = (survivors df2).map fES :=
    map_eq_of_map_eq stripSymbol fES fES
      (fun a b hab => by
        have h0 := congrArg fES hab
        exact h0) _ _ hs
  have hRG : (survivors df1).map fRG = (survivors df2).map fRG :=
    map_eq_of_map_eq stripSymbol fRG fRG
      (fun a b hab => by
        have h0 := congrArg fRG hab
        exact h0) _ _ hs
  have hfund : ∀ a b, stripSymbol a = stripSymbol b →
      fundamentalScore (survivors df1) a = fundamentalScore (survivors df2) b := by
    intro a b hab
    have h1 := congrArg fES hab
    have hesab : fES a = fES b := h1
    have h2 := congrArg fRG hab
    have hrgab : fRG a = fRG b := h2
    unfold fundamentalScore
    rw [hES, hRG, hesab, hrgab]
  have hrb : ∀ a b, stripSymbol a = stripSymbol b →
      recBreakout (survivors df1) a = recBreakout (survivors df2) b := by
    intro a b hab
    have h3 := congrArg technicalScore hab
    have htab : technicalScore a = technicalScore b := h3
    unfold recBreakout
    rw [hfund a b hab, htab]
  have hsrev : ((survivors df1).reverse).map stripSymbol
      = ((survivors df2).reverse).map stripSymbol := by
    rw [List.map_reverse, List.map_reverse, hs]
  have hsort : (sortAscByKey (recBreakout (survivors df1))
        ((survivors df1).reverse)).map stripSymbol
      = (sortAscByKey (recBreakout (survivors df2))
        ((survivors df2).reverse)).map stripSymbol :=
    sortAscByKey_pair stripSymbol _ _ hrb _ _ hsrev
  have final : (sortAscByKey (recBreakout (survivors df1))
        ((survivors df1).reverse)).map (fundamentalScore (survivors df1))
      = (sortAscByKey (recBreakout (survivors df2))
        ((survivors df2).reverse)).map (fundamentalScore (survivors df2)) :=
    map_eq_of_map_eq stripSymbol _ _ hfund _ _ hsort
  rw [calculate_eq, calculate_eq, List.map_reverse, List.map_reverse,
    List.map_map, List.map_map]
  exact congrArg List.reverse final

theorem C8_symbol_invariance_witness :
    (calculate_stock_scores [rA] ("Balanced")).map (fun r => r.fundamentalScore) =
      (calculate_stock_scores [rB] ("Balanced")).map (fun r => r.fundamentalScore) :=
  C8_symbol_invariance [rA] [rB] ("Balanced") (by with_unfolding_all rfl)
